import Mathlib

/-!
Shallow embedding of the tenant-shard placement scheduler from
src/storage_controller/src/scheduler.rs, together with theorems about its
behaviour.  Machine integers (usize, u32, u64) are modelled as Nat with
explicit reduction modulo 2 ^ 64 or 2 ^ 32 where the Rust code can wrap in
release builds.  The HashMap of nodes is modelled as an association list;
iteration order is treated explicitly where it could matter.
-/

namespace NeonScheduler

/-- Modulus of the 64-bit unsigned integers (usize, u64). -/
def U64 : Nat := 2 ^ 64

/-- Modulus of the 32-bit unsigned integers (u32). -/
def U32 : Nat := 2 ^ 32

/-- Modelled from the spec: PageserverUtilization is defined in the
pageserver_api crate, which is not under src/.  Per the spec it is an opaque
structure exposing a cached overall score (lower is better), a predicate
is_overloaded on scores, and a mutator adjust_shard_count_max raising the
internal shard count to at least the given value.  We model the cached score
and the internal shard count as plain fields. -/
structure PageserverUtilization where
  utilization_score : Nat
  shard_count : Nat
deriving DecidableEq

/-- Modelled from the spec: reading the cached score may refresh an internal
cache, so the model returns the score together with the possibly updated
structure (here unchanged, since the cache is modelled as a plain field). -/
def PageserverUtilization.cached_score (u : PageserverUtilization) :
    Nat × PageserverUtilization :=
  (u.utilization_score, u)

/-- Modelled from the spec: raise the internal shard count to at least n. -/
def PageserverUtilization.adjust_shard_count_max (u : PageserverUtilization)
    (n : Nat) : PageserverUtilization :=
  { u with shard_count := max u.shard_count n }

/-- MaySchedule from scheduler.rs: Yes carries the utilization snapshot. -/
inductive MaySchedule
  | yes (u : PageserverUtilization)
  | no
deriving DecidableEq

/-- SchedulerNode from scheduler.rs: per-node counters plus elegibility. -/
structure SchedulerNode where
  shard_count : Nat
  attached_shard_count : Nat
  may_schedule : MaySchedule
deriving DecidableEq

/-- Scheduler from scheduler.rs: the node table.  The Rust HashMap is
modelled as an association list from node id (u64, modelled as Nat) to
SchedulerNode; reachable states have pairwise distinct keys. -/
structure Scheduler where
  nodes : List (Nat × SchedulerNode)
deriving DecidableEq

/-- ScheduleError from scheduler.rs. -/
inductive ScheduleError
  | noPageservers
  | impossibleConstraint
deriving DecidableEq

/-- ScheduleMode from scheduler.rs: Normal or Speculative. -/
inductive ScheduleMode
  | normal
  | speculative
deriving DecidableEq

/-- ScheduleContext from scheduler.rs.  The two sparse HashMaps are modelled
as association lists; an absent node id means affinity FREE (0) or zero
attached locations. -/
structure ScheduleContext where
  nodes : List (Nat × Nat)
  attached_nodes : List (Nat × Nat)
  mode : ScheduleMode

/-- Lookup in a sparse association map, as HashMap::get followed by copied. -/
def ctxGet (m : List (Nat × Nat)) (id : Nat) : Option Nat :=
  (m.find? fun p => p.1 == id).map Prod.snd

/-- RefCountUpdate from scheduler.rs. -/
inductive RefCountUpdate
  | promoteSecondary
  | attach
  | detach
  | demoteAttached
  | addSecondary
  | removeSecondary
deriving DecidableEq

/-- NodeAttachmentSchedulingScore from scheduler.rs.  Ordering is
lexicographic in declaration order, derived below through a key into nested
lexicographic products. -/
structure NodeAttachmentSchedulingScore where
  affinity_score : Nat
  attached_shards_in_context : Nat
  utilization_score : Nat
  total_attached_shard_count : Nat
  node_id : Nat
deriving DecidableEq

/-- Key realizing the derived lexicographic order of the attachment score. -/
def NodeAttachmentSchedulingScore.key (s : NodeAttachmentSchedulingScore) :
    Lex (Nat × Lex (Nat × Lex (Nat × Lex (Nat × Nat)))) :=
  toLex (s.affinity_score, toLex (s.attached_shards_in_context,
    toLex (s.utilization_score, toLex (s.total_attached_shard_count, s.node_id))))

instance : LinearOrder NodeAttachmentSchedulingScore :=
  LinearOrder.lift' NodeAttachmentSchedulingScore.key (by
    intro a b h
    cases a
    cases b
    simpa [NodeAttachmentSchedulingScore.key] using h)

/-- NodeSecondarySchedulingScore from scheduler.rs: identical to the
attachment score except the attached_shards_in_context field is omitted. -/
structure NodeSecondarySchedulingScore where
  affinity_score : Nat
  utilization_score : Nat
  total_attached_shard_count : Nat
  node_id : Nat
deriving DecidableEq

/-- Key realizing the derived lexicographic order of the secondary score. -/
def NodeSecondarySchedulingScore.key (s : NodeSecondarySchedulingScore) :
    Lex (Nat × Lex (Nat × Lex (Nat × Nat))) :=
  toLex (s.affinity_score, toLex (s.utilization_score,
    toLex (s.total_attached_shard_count, s.node_id)))

instance : LinearOrder NodeSecondarySchedulingScore :=
  LinearOrder.lift' NodeSecondarySchedulingScore.key (by
    intro a b h
    cases a
    cases b
    simpa [NodeSecondarySchedulingScore.key] using h)

/-- NodeAttachmentSchedulingScore::generate.  In the source the node is
passed by mutable reference because reading the cached score may refresh the
utilization cache; the model therefore returns the possibly updated node
alongside the optional score.  Nodes with may_schedule No yield no score. -/
def NodeAttachmentSchedulingScore.generate (node_id : Nat)
    (node : SchedulerNode) (context : ScheduleContext) :
    Option NodeAttachmentSchedulingScore × SchedulerNode :=
  match node.may_schedule with
  | .no => (none, node)
  | .yes u =>
      let r := u.cached_score
      (some { affinity_score := (ctxGet context.nodes node_id).getD 0,
              attached_shards_in_context :=
                (ctxGet context.attached_nodes node_id).getD 0,
              utilization_score := r.1,
              total_attached_shard_count := node.attached_shard_count,
              node_id := node_id },
       { node with may_schedule := .yes r.2 })

/-- NodeSecondarySchedulingScore::generate, analogous to the attachment
version without the attached_shards_in_context field. -/
def NodeSecondarySchedulingScore.generate (node_id : Nat)
    (node : SchedulerNode) (context : ScheduleContext) :
    Option NodeSecondarySchedulingScore × SchedulerNode :=
  match node.may_schedule with
  | .no => (none, node)
  | .yes u =>
      let r := u.cached_score
      (some { affinity_score := (ctxGet context.nodes node_id).getD 0,
              utilization_score := r.1,
              total_attached_shard_count := node.attached_shard_count,
              node_id := node_id },
       { node with may_schedule := .yes r.2 })

/-- Scheduler::new: build the table with zero counters and the supplied
may_schedule value for each node.  The input stands for the iterator of
nodes; only the id and may_schedule of each Node are consumed. -/
def Scheduler.new (ns : List (Nat × MaySchedule)) : Scheduler :=
  ⟨ns.map fun p => (p.1, ⟨0, 0, p.2⟩)⟩

/-- HashMap::get on the node table (first matching key). -/
def Scheduler.get_node (s : Scheduler) (id : Nat) : Option SchedulerNode :=
  (s.nodes.find? fun p => p.1 == id).map Prod.snd

/-- Counter part of Scheduler::update_node_ref_counts: the six-way match on
the update.  usize increments and decrements are taken modulo 2 ^ 64,
matching Rust release-build wrapping. -/
def applyRefCountUpdate (update : RefCountUpdate) (node : SchedulerNode) :
    SchedulerNode :=
  match update with
  | .promoteSecondary =>
      { node with attached_shard_count := (node.attached_shard_count + 1) % U64 }
  | .attach =>
      { node with shard_count := (node.shard_count + 1) % U64,
                  attached_shard_count := (node.attached_shard_count + 1) % U64 }
  | .detach =>
      { node with shard_count := (node.shard_count + (U64 - 1)) % U64,
                  attached_shard_count :=
                    (node.attached_shard_count + (U64 - 1)) % U64 }
  | .demoteAttached =>
      { node with attached_shard_count :=
                    (node.attached_shard_count + (U64 - 1)) % U64 }
  | .addSecondary =>
      { node with shard_count := (node.shard_count + 1) % U64 }
  | .removeSecondary =>
      { node with shard_count := (node.shard_count + (U64 - 1)) % U64 }

/-- Utilization part of Scheduler::update_node_ref_counts: updates that add
load bump the utilization shard count to the new shard_count (cast to u32);
updates that remove load leave the utilization untouched. -/
def applyUtilizationUpdate (update : RefCountUpdate) (node : SchedulerNode) :
    SchedulerNode :=
  match update with
  | .attach | .addSecondary =>
      match node.may_schedule with
      | .yes u =>
          { node with may_schedule :=
              MaySchedule.yes (u.adjust_shard_count_max (node.shard_count % U32)) }
      | .no => node
  | _ => node

/-- Scheduler::update_node_ref_counts.  An unknown node id leaves the table
unchanged (the source logs and returns; the debug assertion is compiled out
in release builds). -/
def Scheduler.update_node_ref_counts (s : Scheduler) (node_id : Nat)
    (update : RefCountUpdate) : Scheduler :=
  ⟨s.nodes.map fun p =>
    if p.1 = node_id then
      (p.1, applyUtilizationUpdate update (applyRefCountUpdate update p.2))
    else p⟩

/-- Scheduler::node_upsert: an occupied entry keeps its counters and gets the
new may_schedule, with the fresh utilization bumped to the known shard count
(cast to u32); a vacant entry is inserted with zero counters. -/
def Scheduler.node_upsert (s : Scheduler) (node_id : Nat) (ms : MaySchedule) :
    Scheduler :=
  if (s.nodes.find? fun p => p.1 == node_id).isSome then
    ⟨s.nodes.map fun p =>
      if p.1 = node_id then
        (p.1, { p.2 with may_schedule :=
          match ms with
          | .yes u => .yes (u.adjust_shard_count_max (p.2.shard_count % U32))
          | .no => .no })
      else p⟩
  else ⟨s.nodes ++ [(node_id, ⟨0, 0, ms⟩)]⟩

/-- Scheduler::node_remove: erase the entry; removing an absent node only
logs a warning. -/
def Scheduler.node_remove (s : Scheduler) (node_id : Nat) : Scheduler :=
  ⟨s.nodes.filter fun p => p.1 != node_id⟩

/-- Scheduler::expected_attached_shard_count.  The source asserts that the
node table is non-empty before dividing; the assertion failure (a panic in
every build profile) is modelled as none.  The usize sum wraps modulo
2 ^ 64 in release builds. -/
def Scheduler.expected_attached_shard_count (s : Scheduler) : Option Nat :=
  let total := (s.nodes.map fun p => p.2.attached_shard_count).sum % U64
  if s.nodes.isEmpty then none else some (total / s.nodes.length)

/-- Scheduler::compute_fill_requirement.  An unknown node id returns 0 (the
debug assertion is compiled out); otherwise the table is provably non-empty,
the assertion passes, and the shortfall below the cluster average is
returned. -/
def Scheduler.compute_fill_requirement (s : Scheduler) (node_id : Nat) :
    Option Nat :=
  match s.get_node node_id with
  | none => some 0
  | some node =>
      if s.nodes.isEmpty then none
      else
        match s.expected_attached_shard_count with
        | none => none
        | some expected =>
            some (if node.attached_shard_count < expected then
                    expected - node.attached_shard_count
                  else 0)

/-- Scheduler::nodes_by_attached_shard_count: all nodes paired with their
attached counts, stably sorted by descending count. -/
def Scheduler.nodes_by_attached_shard_count (s : Scheduler) :
    List (Nat × Nat) :=
  (s.nodes.map fun p => (p.1, p.2.attached_shard_count)).mergeSort
    fun a b => decide (b.2 ≤ a.2)

/-- Helper for Scheduler::node_preferred: whether the node is known and its
may_schedule is not No. -/
def Scheduler.may_schedule_flag (s : Scheduler) (node_id : Nat) : Bool :=
  match s.get_node node_id with
  | some n => match n.may_schedule with | .no => false | .yes _ => true
  | none => false

/-- Scheduler::node_preferred.  Iterator::max_by_key returns the last of the
maximal elements, modelled by a fold that replaces the accumulator on ties. -/
def Scheduler.node_preferred (s : Scheduler) (nodes : List Nat) : Option Nat :=
  if nodes.isEmpty then none
  else
    let pairs := nodes.map fun node_id => (node_id, s.may_schedule_flag node_id)
    let best := pairs.foldl
      (fun acc p =>
        match acc with
        | none => some p
        | some b => if b.2 ≤ p.2 then some p else some b)
      none
    best.bind fun p => if p.2 then some p.1 else none

/-- Counter invariant of the node table: every attached_shard_count is at
most the corresponding shard_count, and both counters are in u64 range. -/
def Scheduler.counters_invariant (s : Scheduler) : Prop :=
  ∀ p ∈ s.nodes, p.2.attached_shard_count ≤ p.2.shard_count ∧
    p.2.shard_count < U64 ∧ p.2.attached_shard_count < U64

/-- Side condition under which a reference-count update is consistent with
the counters it modifies: decrements need a positive counter, increments
must not overflow, and the updates that move a location between the
secondary and attached roles need attached_shard_count strictly below
shard_count. -/
def ref_count_precondition (update : RefCountUpdate) (n : SchedulerNode) :
    Prop :=
  match update with
  | .attach => n.shard_count + 1 < U64
  | .addSecondary => n.shard_count + 1 < U64
  | .detach => 0 < n.attached_shard_count
  | .demoteAttached => 0 < n.attached_shard_count
  | .promoteSecondary => n.attached_shard_count < n.shard_count
  | .removeSecondary => n.attached_shard_count < n.shard_count

section ScheduleCore

variable {σ : Type} [LinearOrder σ]

/-- Scheduler::compute_node_scores: generate a score for every node not in
hard_exclude, threading the possible utilization-cache refresh of each node
back into the table.  The score list is the filter_map of the generated
scores; the returned scheduler carries the updated nodes. -/
def compute_node_scores (gen : Nat → SchedulerNode → Option σ × SchedulerNode)
    (s : Scheduler) (hard_exclude : List Nat) : List σ × Scheduler :=
  let stepped := s.nodes.map fun p =>
    if p.1 ∈ hard_exclude then ((none : Option σ), p)
    else
      let r := gen p.1 p.2
      (r.1, (p.1, r.2))
  (stepped.filterMap Prod.fst, ⟨stepped.map Prod.snd⟩)

/-- Scheduler::schedule_shard, generic over the score type selected by the
shard tag.  Sorting ascending and taking the first element is embedded as
taking the minimum of the candidate list.  Logging (in Normal mode) has no
observable effect and is omitted. -/
def schedule_core (node_id_of : σ → Nat) (overloaded : σ → Bool)
    (gen : Nat → SchedulerNode → Option σ × SchedulerNode)
    (s : Scheduler) (hard_exclude : List Nat) :
    Except ScheduleError Nat × Scheduler :=
  if s.nodes.isEmpty then (.error .noPageservers, s)
  else
    let r := compute_node_scores gen s hard_exclude
    let scores0 := r.1
    let non_overloaded := scores0.filter fun sc => !overloaded sc
    let scores := if non_overloaded.isEmpty then scores0 else non_overloaded
    match scores.min? with
    | none => (.error .impossibleConstraint, r.2)
    | some winner => (.ok (node_id_of winner), r.2)

/-- Pure view of the candidate score list produced by compute_node_scores. -/
def pure_scores (gen : Nat → SchedulerNode → Option σ × SchedulerNode)
    (s : Scheduler) (hard_exclude : List Nat) : List σ :=
  s.nodes.filterMap fun p =>
    if p.1 ∈ hard_exclude then none else (gen p.1 p.2).1

end ScheduleCore

instance : DecidableEq (Except ScheduleError Nat) := fun a b =>
  match a, b with
  | .ok x, .ok y => if h : x = y then isTrue (by simp [h]) else isFalse (by simp [h])
  | .error x, .error y =>
      if h : x = y then isTrue (by simp [h]) else isFalse (by simp [h])
  | .ok _, .error _ => isFalse (by simp)
  | .error _, .ok _ => isFalse (by simp)

/-- schedule_shard with the AttachedShardTag. -/
def Scheduler.schedule_shard_attached (ovp : Nat → Bool) (s : Scheduler)
    (hard_exclude : List Nat) (context : ScheduleContext) :
    Except ScheduleError Nat × Scheduler :=
  schedule_core NodeAttachmentSchedulingScore.node_id
    (fun sc => ovp sc.utilization_score)
    (fun id n => NodeAttachmentSchedulingScore.generate id n context)
    s hard_exclude

/-- schedule_shard with the SecondaryShardTag. -/
def Scheduler.schedule_shard_secondary (ovp : Nat → Bool) (s : Scheduler)
    (hard_exclude : List Nat) (context : ScheduleContext) :
    Except ScheduleError Nat × Scheduler :=
  schedule_core NodeSecondarySchedulingScore.node_id
    (fun sc => ovp sc.utilization_score)
    (fun id n => NodeSecondarySchedulingScore.generate id n context)
    s hard_exclude

/-- Candidate attachment scores of a scheduling call, as a pure list. -/
def Scheduler.attachment_scores (s : Scheduler) (hard_exclude : List Nat)
    (context : ScheduleContext) : List NodeAttachmentSchedulingScore :=
  pure_scores (fun id n => NodeAttachmentSchedulingScore.generate id n context)
    s hard_exclude

/-- Candidate secondary scores of a scheduling call, as a pure list. -/
def Scheduler.secondary_scores (s : Scheduler) (hard_exclude : List Nat)
    (context : ScheduleContext) : List NodeSecondarySchedulingScore :=
  pure_scores (fun id n => NodeSecondarySchedulingScore.generate id n context)
    s hard_exclude

section MinLemmas

variable {σ : Type} [LinearOrder σ]

instance : Std.Antisymm (fun x1 x2 : σ => x1 ≤ x2) :=
  ⟨fun h1 h2 => le_antisymm h1 h2⟩

/-- Characterization of the list minimum in a linear order. -/
theorem listMin_eq_some_iff {l : List σ} {a : σ} :
    l.min? = some a ↔ a ∈ l ∧ ∀ b ∈ l, a ≤ b :=
  List.min?_eq_some_iff le_refl min_choice fun _ _ _ => le_min_iff

/-- The list minimum only depends on the multiset of elements. -/
theorem listMin_perm {l₁ l₂ : List σ} (h : l₁.Perm l₂) : l₁.min? = l₂.min? := by
  cases h1 : l₁.min? with
  | none =>
      rw [List.min?_eq_none_iff] at h1
      subst h1
      exact (List.min?_eq_none_iff.mpr h.symm.eq_nil).symm
  | some a =>
      have ha := listMin_eq_some_iff.mp h1
      cases h2 : l₂.min? with
      | none =>
          rw [List.min?_eq_none_iff] at h2
          rw [h2] at h
          exact absurd (h.mem_iff.mp ha.1) (List.not_mem_nil a)
      | some b =>
          have hb := listMin_eq_some_iff.mp h2
          have hab : a = b :=
            le_antisymm (ha.2 b (h.mem_iff.mpr hb.1)) (hb.2 a (h.mem_iff.mp ha.1))
          rw [hab]

end MinLemmas

section CoreLemmas

variable {σ : Type}
variable (gen : Nat → SchedulerNode → Option σ × SchedulerNode)

/-- The score list of compute_node_scores is the pure filter-map. -/
theorem compute_node_scores_fst (s : Scheduler) (hx : List Nat) :
    (compute_node_scores gen s hx).1 = pure_scores gen s hx := by
  simp only [compute_node_scores, pure_scores, List.filterMap_map]
  congr 1
  funext p
  by_cases hp : p.1 ∈ hx <;> simp [hp]

/-- When score generation leaves nodes unchanged, compute_node_scores
returns the input table. -/
theorem compute_node_scores_snd (Hp : ∀ id n, (gen id n).2 = n)
    (s : Scheduler) (hx : List Nat) :
    (compute_node_scores gen s hx).2 = s := by
  simp only [compute_node_scores]
  cases s with
  | mk ns =>
      simp only [Scheduler.mk.injEq, List.map_map]
      nth_rewrite 2 [show ns = ns.map id from (List.map_id ns).symm]
      congr 1
      funext p
      by_cases hp : p.1 ∈ hx <;> simp [hp, Hp]

variable [LinearOrder σ]
variable (node_id_of : σ → Nat) (overloaded : σ → Bool)

/-- Closed form of the result component of schedule_core over the pure
candidate score list. -/
theorem schedule_core_fst (s : Scheduler) (hx : List Nat) :
    (schedule_core node_id_of overloaded gen s hx).1 =
      if s.nodes.isEmpty then .error .noPageservers
      else
        match (if ((pure_scores gen s hx).filter fun sc => !overloaded sc).isEmpty
                then pure_scores gen s hx
                else (pure_scores gen s hx).filter fun sc => !overloaded sc).min? with
        | none => .error .impossibleConstraint
        | some w => .ok (node_id_of w) := by
  unfold schedule_core
  by_cases he : s.nodes.isEmpty
  · simp [he]
  · simp only [he, if_false, Bool.false_eq_true]
    rw [show (compute_node_scores gen s hx).1 = pure_scores gen s hx from
      compute_node_scores_fst gen s hx]
    cases hm : (if ((pure_scores gen s hx).filter fun sc => !overloaded sc).isEmpty
        then pure_scores gen s hx
        else (pure_scores gen s hx).filter fun sc => !overloaded sc).min? <;>
      simp [hm]

/-- Any Ok result of schedule_core names the id of some candidate score. -/
theorem schedule_core_ok_mem {s : Scheduler} {hx : List Nat} {id : Nat}
    (h : (schedule_core node_id_of overloaded gen s hx).1 = .ok id) :
    ∃ sc ∈ pure_scores gen s hx, node_id_of sc = id := by
  rw [schedule_core_fst] at h
  by_cases he : s.nodes.isEmpty
  · rw [if_pos he] at h
    exact absurd h (by simp)
  · rw [if_neg he] at h
    cases hm : (if ((pure_scores gen s hx).filter fun sc => !overloaded sc).isEmpty
        then pure_scores gen s hx
        else (pure_scores gen s hx).filter fun sc => !overloaded sc).min? with
    | none => rw [hm] at h; exact absurd h (by simp)
    | some w =>
        rw [hm] at h
        have hw := (listMin_eq_some_iff.mp hm).1
        have hid : node_id_of w = id := by simpa using h
        by_cases hov : ((pure_scores gen s hx).filter fun sc => !overloaded sc).isEmpty
        · rw [if_pos hov] at hw
          exact ⟨w, hw, hid⟩
        · rw [if_neg hov] at hw
          exact ⟨w, List.mem_of_mem_filter hw, hid⟩

/-- schedule_core returns NoPageservers exactly on the empty node table. -/
theorem schedule_core_no_pageservers (s : Scheduler) (hx : List Nat) :
    (schedule_core node_id_of overloaded gen s hx).1 = .error .noPageservers ↔
      s.nodes = [] := by
  rw [schedule_core_fst]
  by_cases he : s.nodes.isEmpty
  · simp [he, List.isEmpty_iff.mp he]
  · rw [if_neg he]
    have hne : ¬ s.nodes = [] := fun hh => he (by simp [hh])
    cases hm : (if ((pure_scores gen s hx).filter fun sc => !overloaded sc).isEmpty
        then pure_scores gen s hx
        else (pure_scores gen s hx).filter fun sc => !overloaded sc).min? <;>
      simp [hm, hne]

/-- schedule_core returns ImpossibleConstraint exactly when the table is
non-empty but no candidate score exists. -/
theorem schedule_core_impossible (s : Scheduler) (hx : List Nat) :
    (schedule_core node_id_of overloaded gen s hx).1 =
        .error .impossibleConstraint ↔
      s.nodes ≠ [] ∧ pure_scores gen s hx = [] := by
  rw [schedule_core_fst]
  by_cases he : s.nodes.isEmpty
  · simp [he, List.isEmpty_iff.mp he]
  · rw [if_neg he]
    have hne : ¬ s.nodes = [] := fun hh => he (by simp [hh])
    by_cases hov : ((pure_scores gen s hx).filter fun sc => !overloaded sc).isEmpty
    · rw [if_pos hov]
      cases hm : (pure_scores gen s hx).min? with
      | none => simp [hm, hne, List.min?_eq_none_iff.mp hm]
      | some w =>
          have hw := (listMin_eq_some_iff.mp hm).1
          have : pure_scores gen s hx ≠ [] := by
            intro hh; rw [hh] at hw; exact List.not_mem_nil w hw
          simp [hm, hne, this]
    · rw [if_neg hov]
      cases hm : ((pure_scores gen s hx).filter fun sc => !overloaded sc).min? with
      | none =>
          rw [List.min?_eq_none_iff] at hm
          exact absurd (by simp [hm]) hov
      | some w =>
          have hw := (listMin_eq_some_iff.mp hm).1
          have : pure_scores gen s hx ≠ [] := by
            intro hh
            rw [hh] at hw
            simp at hw
          simp [hm, hne, this]

/-- With a non-empty table and at least one candidate, schedule_core
returns Ok. -/
theorem schedule_core_ok_exists {s : Scheduler} {hx : List Nat}
    (hne : s.nodes ≠ []) (hsc : pure_scores gen s hx ≠ []) :
    ∃ id, (schedule_core node_id_of overloaded gen s hx).1 = .ok id := by
  rw [schedule_core_fst]
  rw [if_neg (by simp [hne])]
  by_cases hov : ((pure_scores gen s hx).filter fun sc => !overloaded sc).isEmpty
  · rw [if_pos hov]
    cases hm : (pure_scores gen s hx).min? with
    | none => exact absurd (List.min?_eq_none_iff.mp hm) hsc
    | some w => exact ⟨node_id_of w, by simp [hm]⟩
  · rw [if_neg hov]
    cases hm : ((pure_scores gen s hx).filter fun sc => !overloaded sc).min? with
    | none =>
        rw [List.min?_eq_none_iff] at hm
        exact absurd (by simp [hm]) hov
    | some w => exact ⟨node_id_of w, by simp [hm]⟩

/-- If some candidate is not overloaded, the winner is such a candidate. -/
theorem schedule_core_avoids_overload {s : Scheduler} {hx : List Nat}
    {sc : σ} (hmem : sc ∈ pure_scores gen s hx)
    (hnov : overloaded sc = false) :
    ∃ w ∈ pure_scores gen s hx, overloaded w = false ∧
      (schedule_core node_id_of overloaded gen s hx).1 = .ok (node_id_of w) := by
  have hne : s.nodes ≠ [] := by
    intro hh
    have : pure_scores gen s hx = [] := by
      unfold pure_scores
      rw [hh]
      rfl
    rw [this] at hmem
    exact List.not_mem_nil sc hmem
  have hovne : ¬ ((pure_scores gen s hx).filter fun x => !overloaded x).isEmpty := by
    have : sc ∈ (pure_scores gen s hx).filter fun x => !overloaded x :=
      List.mem_filter.mpr ⟨hmem, by simp [hnov]⟩
    intro hh
    rw [List.isEmpty_iff.mp hh] at this
    exact List.not_mem_nil sc this
  rw [schedule_core_fst, if_neg (by simp [hne]), if_neg hovne]
  cases hm : ((pure_scores gen s hx).filter fun x => !overloaded x).min? with
  | none =>
      rw [List.min?_eq_none_iff] at hm
      exact absurd (by simp [hm]) hovne
  | some w =>
      have hw := (listMin_eq_some_iff.mp hm).1
      have hwf := List.mem_filter.mp hw
      exact ⟨w, hwf.1, by simpa using hwf.2, by simp⟩

/-- If every candidate is overloaded, the winner is still one of them. -/
theorem schedule_core_all_overloaded {s : Scheduler} {hx : List Nat}
    (hsc : pure_scores gen s hx ≠ [])
    (hall : ∀ sc ∈ pure_scores gen s hx, overloaded sc = true) :
    ∃ w ∈ pure_scores gen s hx,
      (schedule_core node_id_of overloaded gen s hx).1 = .ok (node_id_of w) := by
  have hne : s.nodes ≠ [] := by
    intro hh
    apply hsc
    unfold pure_scores
    rw [hh]
    rfl
  have hov : ((pure_scores gen s hx).filter fun x => !overloaded x) = [] := by
    rw [List.filter_eq_nil_iff]
    intro a ha
    simp [hall a ha]
  rw [schedule_core_fst, if_neg (by simp [hne]), if_pos (by simp [hov])]
  cases hm : (pure_scores gen s hx).min? with
  | none => exact absurd (List.min?_eq_none_iff.mp hm) hsc
  | some w => exact ⟨w, (listMin_eq_some_iff.mp hm).1, by simp [hm]⟩

/-- When score generation leaves nodes unchanged, schedule_core returns the
scheduler unchanged. -/
theorem schedule_core_frame (Hp : ∀ id n, (gen id n).2 = n)
    (s : Scheduler) (hx : List Nat) :
    (schedule_core node_id_of overloaded gen s hx).2 = s := by
  unfold schedule_core
  by_cases he : s.nodes.isEmpty
  · simp [he]
  · simp only [he, if_false, Bool.false_eq_true]
    rw [show (compute_node_scores gen s hx).2 = s from
      compute_node_scores_snd gen Hp s hx]
    cases hm : (if ((compute_node_scores gen s hx).1.filter
        fun sc => !overloaded sc).isEmpty
        then (compute_node_scores gen s hx).1
        else (compute_node_scores gen s hx).1.filter fun sc => !overloaded sc).min? <;>
      simp [hm]

/-- The result of schedule_core only depends on the set of table entries,
not on the iteration order of the underlying hash map. -/
theorem schedule_core_perm {s₁ s₂ : Scheduler} (hx : List Nat)
    (h : s₁.nodes.Perm s₂.nodes) :
    (schedule_core node_id_of overloaded gen s₁ hx).1 =
      (schedule_core node_id_of overloaded gen s₂ hx).1 := by
  have hp : (pure_scores gen s₁ hx).Perm (pure_scores gen s₂ hx) :=
    h.filterMap _
  have hf : ((pure_scores gen s₁ hx).filter fun sc => !overloaded sc).Perm
      ((pure_scores gen s₂ hx).filter fun sc => !overloaded sc) :=
    hp.filter _
  rw [schedule_core_fst, schedule_core_fst, h.isEmpty_eq, hf.isEmpty_eq]
  by_cases he : s₂.nodes.isEmpty
  · simp [he]
  · by_cases hc : ((pure_scores gen s₂ hx).filter fun sc => !overloaded sc).isEmpty
    · simp [he, hc, listMin_perm hp]
    · simp [he, hc, listMin_perm hf]

end CoreLemmas

section TagLemmas

/-- Attachment score generation never changes the node. -/
theorem attachment_generate_snd (id : Nat) (n : SchedulerNode)
    (ctx : ScheduleContext) :
    (NodeAttachmentSchedulingScore.generate id n ctx).2 = n := by
  cases n with
  | mk sc ac ms =>
      cases ms <;>
        simp [NodeAttachmentSchedulingScore.generate,
          PageserverUtilization.cached_score]

/-- Secondary score generation never changes the node. -/
theorem secondary_generate_snd (id : Nat) (n : SchedulerNode)
    (ctx : ScheduleContext) :
    (NodeSecondarySchedulingScore.generate id n ctx).2 = n := by
  cases n with
  | mk sc ac ms =>
      cases ms <;>
        simp [NodeSecondarySchedulingScore.generate,
          PageserverUtilization.cached_score]

/-- Attachment score generation yields no score exactly on may_schedule No. -/
theorem attachment_generate_none_iff (id : Nat) (n : SchedulerNode)
    (ctx : ScheduleContext) :
    (NodeAttachmentSchedulingScore.generate id n ctx).1 = none ↔
      n.may_schedule = .no := by
  cases hm : n.may_schedule <;>
    simp [NodeAttachmentSchedulingScore.generate, hm]

/-- Secondary score generation yields no score exactly on may_schedule No. -/
theorem secondary_generate_none_iff (id : Nat) (n : SchedulerNode)
    (ctx : ScheduleContext) :
    (NodeSecondarySchedulingScore.generate id n ctx).1 = none ↔
      n.may_schedule = .no := by
  cases hm : n.may_schedule <;>
    simp [NodeSecondarySchedulingScore.generate, hm]

/-- A generated attachment score carries the id of its node, whose
may_schedule is Yes. -/
theorem attachment_generate_some {id : Nat} {n : SchedulerNode}
    {ctx : ScheduleContext} {sc : NodeAttachmentSchedulingScore}
    (h : (NodeAttachmentSchedulingScore.generate id n ctx).1 = some sc) :
    sc.node_id = id ∧ ∃ u, n.may_schedule = .yes u := by
  cases hm : n.may_schedule with
  | no => simp [NodeAttachmentSchedulingScore.generate, hm] at h
  | yes u =>
      simp [NodeAttachmentSchedulingScore.generate, hm,
        PageserverUtilization.cached_score] at h
      exact ⟨by rw [← h], u, rfl⟩

/-- A generated secondary score carries the id of its node, whose
may_schedule is Yes. -/
theorem secondary_generate_some {id : Nat} {n : SchedulerNode}
    {ctx : ScheduleContext} {sc : NodeSecondarySchedulingScore}
    (h : (NodeSecondarySchedulingScore.generate id n ctx).1 = some sc) :
    sc.node_id = id ∧ ∃ u, n.may_schedule = .yes u := by
  cases hm : n.may_schedule with
  | no => simp [NodeSecondarySchedulingScore.generate, hm] at h
  | yes u =>
      simp [NodeSecondarySchedulingScore.generate, hm,
        PageserverUtilization.cached_score] at h
      exact ⟨by rw [← h], u, rfl⟩

/-- Explicit value of a generated attachment score on a schedulable node. -/
theorem attachment_generate_yes {id : Nat} {n : SchedulerNode}
    {u : PageserverUtilization} (ctx : ScheduleContext)
    (hm : n.may_schedule = .yes u) :
    (NodeAttachmentSchedulingScore.generate id n ctx).1 = some
      { affinity_score := (ctxGet ctx.nodes id).getD 0,
        attached_shards_in_context := (ctxGet ctx.attached_nodes id).getD 0,
        utilization_score := u.utilization_score,
        total_attached_shard_count := n.attached_shard_count,
        node_id := id } := by
  simp [NodeAttachmentSchedulingScore.generate, hm,
    PageserverUtilization.cached_score]

end TagLemmas

section ClaimHelpers

variable {σ : Type} [LinearOrder σ]

/-- Soundness of an Ok result of schedule_core: the returned id is outside
hard_exclude and belongs to a table entry whose may_schedule is Yes. -/
theorem schedule_core_ok_sound (node_id_of : σ → Nat) (overloaded : σ → Bool)
    (gen : Nat → SchedulerNode → Option σ × SchedulerNode)
    (Hs : ∀ id n sc, (gen id n).1 = some sc →
      node_id_of sc = id ∧ ∃ u, n.may_schedule = .yes u)
    {s : Scheduler} {hx : List Nat} {id : Nat}
    (h : (schedule_core node_id_of overloaded gen s hx).1 = .ok id) :
    id ∉ hx ∧ ∃ p ∈ s.nodes, p.1 = id ∧ ∃ u, p.2.may_schedule = .yes u := by
  obtain ⟨sc, hmem, hnid⟩ := schedule_core_ok_mem gen node_id_of overloaded h
  unfold pure_scores at hmem
  rw [List.mem_filterMap] at hmem
  obtain ⟨p, hp, hgen⟩ := hmem
  by_cases hpx : p.1 ∈ hx
  · rw [if_pos hpx] at hgen
    exact absurd hgen (by simp)
  · rw [if_neg hpx] at hgen
    obtain ⟨hnid2, u, hu⟩ := Hs p.1 p.2 sc hgen
    have hpid : p.1 = id := hnid2.symm.trans hnid
    exact ⟨hpid ▸ hpx, p, hp, hpid, u, hu⟩

/-- The candidate score list is empty exactly when every node is either
hard-excluded or not schedulable. -/
theorem pure_scores_nil_iff {σ : Type}
    (gen : Nat → SchedulerNode → Option σ × SchedulerNode)
    (Hn : ∀ id n, (gen id n).1 = none ↔ n.may_schedule = .no)
    (s : Scheduler) (hx : List Nat) :
    pure_scores gen s hx = [] ↔
      ∀ p ∈ s.nodes, p.1 ∈ hx ∨ p.2.may_schedule = .no := by
  unfold pure_scores
  rw [List.filterMap_eq_nil_iff]
  constructor
  · intro h p hp
    have hh := h p hp
    by_cases hpx : p.1 ∈ hx
    · exact Or.inl hpx
    · rw [if_neg hpx] at hh
      exact Or.inr ((Hn p.1 p.2).mp hh)
  · intro h p hp
    rcases h p hp with hpx | hno
    · rw [if_pos hpx]
    · by_cases hpx : p.1 ∈ hx
      · rw [if_pos hpx]
      · rw [if_neg hpx]
        exact (Hn p.1 p.2).mpr hno

end ClaimHelpers

/-- C2: if some candidate (a node outside hard_exclude with may_schedule
Yes) has a non-overloaded score, the scheduled node is such a candidate;
if every candidate is overloaded, schedule_shard still returns one of them
rather than failing.  Stated for both shard tags. -/
theorem schedule_shard_overload_avoidance (ovp : Nat → Bool) (s : Scheduler)
    (hx : List Nat) (ctx : ScheduleContext) :
    ((∃ sc ∈ s.attachment_scores hx ctx, ovp sc.utilization_score = false) →
      ∃ w ∈ s.attachment_scores hx ctx, ovp w.utilization_score = false ∧
        (s.schedule_shard_attached ovp hx ctx).1 = .ok w.node_id) ∧
    (s.attachment_scores hx ctx ≠ [] →
      (∀ sc ∈ s.attachment_scores hx ctx, ovp sc.utilization_score = true) →
      ∃ w ∈ s.attachment_scores hx ctx,
        (s.schedule_shard_attached ovp hx ctx).1 = .ok w.node_id) ∧
    ((∃ sc ∈ s.secondary_scores hx ctx, ovp sc.utilization_score = false) →
      ∃ w ∈ s.secondary_scores hx ctx, ovp w.utilization_score = false ∧
        (s.schedule_shard_secondary ovp hx ctx).1 = .ok w.node_id) ∧
    (s.secondary_scores hx ctx ≠ [] →
      (∀ sc ∈ s.secondary_scores hx ctx, ovp sc.utilization_score = true) →
      ∃ w ∈ s.secondary_scores hx ctx,
        (s.schedule_shard_secondary ovp hx ctx).1 = .ok w.node_id) := by
  refine ⟨?_, ?_, ?_, ?_⟩
  · rintro ⟨sc, hm, hnov⟩
    exact schedule_core_avoids_overload _ _ _ hm hnov
  · intro hne hall
    exact schedule_core_all_overloaded _ _ _ hne hall
  · rintro ⟨sc, hm, hnov⟩
    exact schedule_core_avoids_overload _ _ _ hm hnov
  · intro hne hall
    exact schedule_core_all_overloaded _ _ _ hne hall

/-- Witness for C2 at a concrete one-node scheduler with a predicate that
never reports overload. -/
theorem schedule_shard_overload_avoidance_witness :
    ∃ w ∈ (Scheduler.new [(1, MaySchedule.yes ⟨0, 0⟩)]).attachment_scores []
        ⟨[], [], .normal⟩, (false : Bool) = false ∧
      ((Scheduler.new [(1, MaySchedule.yes ⟨0, 0⟩)]).schedule_shard_attached
        (fun _ => false) [] ⟨[], [], .normal⟩).1 = .ok w.node_id :=
  (schedule_shard_overload_avoidance (fun _ => false)
    (Scheduler.new [(1, MaySchedule.yes ⟨0, 0⟩)]) [] ⟨[], [], .normal⟩).1
    (by decide)

/-- C3: schedule_shard returns NoPageservers exactly on an empty node
table, ImpossibleConstraint exactly when the table is non-empty but every
node is hard-excluded or has may_schedule No, and otherwise returns Ok with
some node id.  Stated for both shard tags. -/
theorem schedule_shard_error_characterization (ovp : Nat → Bool)
    (s : Scheduler) (hx : List Nat) (ctx : ScheduleContext) :
    ((s.schedule_shard_attached ovp hx ctx).1 = .error .noPageservers ↔
      s.nodes = []) ∧
    ((s.schedule_shard_attached ovp hx ctx).1 = .error .impossibleConstraint ↔
      s.nodes ≠ [] ∧ ∀ p ∈ s.nodes, p.1 ∈ hx ∨ p.2.may_schedule = .no) ∧
    ((s.nodes ≠ [] ∧ ∃ p ∈ s.nodes, p.1 ∉ hx ∧ p.2.may_schedule ≠ .no) →
      ∃ id, (s.schedule_shard_attached ovp hx ctx).1 = .ok id) ∧
    ((s.schedule_shard_secondary ovp hx ctx).1 = .error .noPageservers ↔
      s.nodes = []) ∧
    ((s.schedule_shard_secondary ovp hx ctx).1 = .error .impossibleConstraint ↔
      s.nodes ≠ [] ∧ ∀ p ∈ s.nodes, p.1 ∈ hx ∨ p.2.may_schedule = .no) ∧
    ((s.nodes ≠ [] ∧ ∃ p ∈ s.nodes, p.1 ∉ hx ∧ p.2.may_schedule ≠ .no) →
      ∃ id, (s.schedule_shard_secondary ovp hx ctx).1 = .ok id) := by
  refine ⟨schedule_core_no_pageservers _ _ _ _ _, ?_, ?_,
    schedule_core_no_pageservers _ _ _ _ _, ?_, ?_⟩
  · rw [Scheduler.schedule_shard_attached, schedule_core_impossible,
      pure_scores_nil_iff _ (fun i n => attachment_generate_none_iff i n ctx)]
  · rintro ⟨hne, p, hp, hpx, hno⟩
    refine schedule_core_ok_exists _ _ _ hne ?_
    intro hnil
    rcases (pure_scores_nil_iff _
        (fun i n => attachment_generate_none_iff i n ctx) s hx).mp hnil p hp with
      h | h
    · exact hpx h
    · exact hno h
  · rw [Scheduler.schedule_shard_secondary, schedule_core_impossible,
      pure_scores_nil_iff _ (fun i n => secondary_generate_none_iff i n ctx)]
  · rintro ⟨hne, p, hp, hpx, hno⟩
    refine schedule_core_ok_exists _ _ _ hne ?_
    intro hnil
    rcases (pure_scores_nil_iff _
        (fun i n => secondary_generate_none_iff i n ctx) s hx).mp hnil p hp with
      h | h
    · exact hpx h
    · exact hno h

/-- Witness for C3 at the concrete empty scheduler. -/
theorem schedule_shard_error_characterization_witness :
    ((Scheduler.mk []).schedule_shard_attached (fun _ => false) []
      ⟨[], [], .normal⟩).1 = .error .noPageservers :=
  (schedule_shard_error_characterization (fun _ => false) (Scheduler.mk [])
    [] ⟨[], [], .normal⟩).1.mpr rfl

/-- C1: for every scheduler state, hard_exclude list, context, and both
shard tags, an Ok result of schedule_shard names a node id outside
hard_exclude belonging to a table entry whose may_schedule is Yes; nodes in
hard_exclude or with may_schedule No are never returned. -/
theorem schedule_shard_hard_constraint (ovp : Nat → Bool) (s : Scheduler)
    (hx : List Nat) (ctx : ScheduleContext) (id : Nat) :
    ((s.schedule_shard_attached ovp hx ctx).1 = .ok id →
      id ∉ hx ∧ ∃ p ∈ s.nodes, p.1 = id ∧ ∃ u, p.2.may_schedule = .yes u) ∧
    ((s.schedule_shard_secondary ovp hx ctx).1 = .ok id →
      id ∉ hx ∧ ∃ p ∈ s.nodes, p.1 = id ∧ ∃ u, p.2.may_schedule = .yes u) := by
  constructor
  · intro h
    exact schedule_core_ok_sound _ _ _
      (fun i n sc hg => attachment_generate_some hg) h
  · intro h
    exact schedule_core_ok_sound _ _ _
      (fun i n sc hg => secondary_generate_some hg) h

/-- Witness for C1 at a concrete one-node scheduler. -/
theorem schedule_shard_hard_constraint_witness :
    1 ∉ ([] : List Nat) ∧
      ∃ p ∈ (Scheduler.new [(1, MaySchedule.yes ⟨0, 0⟩)]).nodes,
        p.1 = 1 ∧ ∃ u, p.2.may_schedule = .yes u :=
  (schedule_shard_hard_constraint (fun _ => false)
    (Scheduler.new [(1, MaySchedule.yes ⟨0, 0⟩)]) [] ⟨[], [], .normal⟩ 1).1 rfl

/-- C7: schedule_shard never mutates the counters: for both tags and any
inputs, every node in the table after the call has the same shard_count and
attached_shard_count as before, and the node id set is unchanged. -/
theorem schedule_shard_no_mutation (ovp : Nat → Bool) (s : Scheduler)
    (hx : List Nat) (ctx : ScheduleContext) :
    ((s.schedule_shard_attached ovp hx ctx).2.nodes.map fun p =>
        (p.1, p.2.shard_count, p.2.attached_shard_count)) =
      (s.nodes.map fun p => (p.1, p.2.shard_count, p.2.attached_shard_count)) ∧
    ((s.schedule_shard_secondary ovp hx ctx).2.nodes.map fun p =>
        (p.1, p.2.shard_count, p.2.attached_shard_count)) =
      (s.nodes.map fun p => (p.1, p.2.shard_count, p.2.attached_shard_count)) := by
  constructor
  · rw [show (s.schedule_shard_attached ovp hx ctx).2 = s from
      schedule_core_frame _ _ _ (fun i n => attachment_generate_snd i n ctx) s hx]
  · rw [show (s.schedule_shard_secondary ovp hx ctx).2 = s from
      schedule_core_frame _ _ _ (fun i n => secondary_generate_snd i n ctx) s hx]

/-- C8: schedule_shard is deterministic: two calls on tables holding the
same entries (in any hash-map iteration order) with the same overload
predicate, hard_exclude, and context return the same result, for both
tags. -/
theorem schedule_shard_deterministic (ovp : Nat → Bool) (s₁ s₂ : Scheduler)
    (hx : List Nat) (ctx : ScheduleContext) (h : s₁.nodes.Perm s₂.nodes) :
    (s₁.schedule_shard_attached ovp hx ctx).1 =
        (s₂.schedule_shard_attached ovp hx ctx).1 ∧
      (s₁.schedule_shard_secondary ovp hx ctx).1 =
        (s₂.schedule_shard_secondary ovp hx ctx).1 :=
  ⟨schedule_core_perm _ _ _ hx h, schedule_core_perm _ _ _ hx h⟩

/-- Witness for C8 at two concrete permuted two-node tables. -/
theorem schedule_shard_deterministic_witness :
    ((Scheduler.mk [(1, ⟨0, 0, .yes ⟨5, 0⟩⟩), (2, ⟨0, 0, .yes ⟨3, 0⟩⟩)]).schedule_shard_attached
        (fun _ => false) [] ⟨[], [], .normal⟩).1 =
      ((Scheduler.mk [(2, ⟨0, 0, .yes ⟨3, 0⟩⟩), (1, ⟨0, 0, .yes ⟨5, 0⟩⟩)]).schedule_shard_attached
        (fun _ => false) [] ⟨[], [], .normal⟩).1 ∧
    ((Scheduler.mk [(1, ⟨0, 0, .yes ⟨5, 0⟩⟩), (2, ⟨0, 0, .yes ⟨3, 0⟩⟩)]).schedule_shard_secondary
        (fun _ => false) [] ⟨[], [], .normal⟩).1 =
      ((Scheduler.mk [(2, ⟨0, 0, .yes ⟨3, 0⟩⟩), (1, ⟨0, 0, .yes ⟨5, 0⟩⟩)]).schedule_shard_secondary
        (fun _ => false) [] ⟨[], [], .normal⟩).1 :=
  schedule_shard_deterministic _ _ _ _ _ (List.Perm.swap _ _ _)

/-- C10: the mode field of the context does not influence the scheduling
decision: two calls whose contexts agree on affinity and attached maps but
differ arbitrarily in mode return the same result, for both tags. -/
theorem schedule_shard_mode_irrelevant (ovp : Nat → Bool) (s : Scheduler)
    (hx : List Nat) (c₁ c₂ : ScheduleContext) (hn : c₁.nodes = c₂.nodes)
    (ha : c₁.attached_nodes = c₂.attached_nodes) :
    (s.schedule_shard_attached ovp hx c₁).1 =
        (s.schedule_shard_attached ovp hx c₂).1 ∧
      (s.schedule_shard_secondary ovp hx c₁).1 =
        (s.schedule_shard_secondary ovp hx c₂).1 := by
  cases c₁ with
  | mk n₁ a₁ m₁ =>
      cases c₂ with
      | mk n₂ a₂ m₂ =>
          simp only at hn ha
          subst hn
          subst ha
          exact ⟨rfl, rfl⟩

/-- Witness for C10 at concrete contexts differing only in mode. -/
theorem schedule_shard_mode_irrelevant_witness :
    ((Scheduler.new [(1, MaySchedule.yes ⟨0, 0⟩)]).schedule_shard_attached
        (fun _ => false) [] ⟨[], [], .normal⟩).1 =
      ((Scheduler.new [(1, MaySchedule.yes ⟨0, 0⟩)]).schedule_shard_attached
        (fun _ => false) [] ⟨[], [], .speculative⟩).1 ∧
    ((Scheduler.new [(1, MaySchedule.yes ⟨0, 0⟩)]).schedule_shard_secondary
        (fun _ => false) [] ⟨[], [], .normal⟩).1 =
      ((Scheduler.new [(1, MaySchedule.yes ⟨0, 0⟩)]).schedule_shard_secondary
        (fun _ => false) [] ⟨[], [], .speculative⟩).1 :=
  schedule_shard_mode_irrelevant _ _ _ _ _ rfl rfl

/-- C9: fixing all other inputs, a strictly higher affinity for a node in
the context yields a greater-or-equal generated attachment score for that
node, so it never ranks ahead of a score it was not already ahead of. -/
theorem affinity_monotone (c₁ c₂ : ScheduleContext) (id : Nat)
    (n : SchedulerNode) (sc₁ sc₂ : NodeAttachmentSchedulingScore)
    (haff : (ctxGet c₁.nodes id).getD 0 < (ctxGet c₂.nodes id).getD 0)
    (_hatt : (ctxGet c₁.attached_nodes id).getD 0 =
      (ctxGet c₂.attached_nodes id).getD 0)
    (h₁ : (NodeAttachmentSchedulingScore.generate id n c₁).1 = some sc₁)
    (h₂ : (NodeAttachmentSchedulingScore.generate id n c₂).1 = some sc₂) :
    sc₁ ≤ sc₂ ∧ ∀ t : NodeAttachmentSchedulingScore, t ≤ sc₁ → t ≤ sc₂ := by
  rcases attachment_generate_some h₁ with ⟨-, u, hu⟩
  rw [attachment_generate_yes c₁ hu] at h₁
  rw [attachment_generate_yes c₂ hu] at h₂
  injection h₁ with e₁
  injection h₂ with e₂
  have hlt : sc₁ < sc₂ := by
    rw [← e₁, ← e₂]
    exact (Prod.Lex.lt_iff _ _).mpr (Or.inl haff)
  exact ⟨le_of_lt hlt, fun t ht => ht.trans (le_of_lt hlt)⟩

/-- Witness for C9 at a concrete node and two concrete contexts. -/
theorem affinity_monotone_witness :
    ({ affinity_score := 0, attached_shards_in_context := 0,
       utilization_score := 0, total_attached_shard_count := 0,
       node_id := 1 } : NodeAttachmentSchedulingScore) ≤
      { affinity_score := 1, attached_shards_in_context := 0,
        utilization_score := 0, total_attached_shard_count := 0,
        node_id := 1 } :=
  (affinity_monotone ⟨[], [], .normal⟩ ⟨[(1, 1)], [], .normal⟩ 1
    ⟨0, 0, .yes ⟨0, 0⟩⟩ _ _ (by decide) rfl rfl rfl).1

/-- A known entry of the table after update_node_ref_counts holds the
composite of the counter update and the utilization update. -/
theorem get_node_update_ref_counts {s : Scheduler} {id : Nat}
    {n : SchedulerNode} (u : RefCountUpdate) (h : s.get_node id = some n) :
    (s.update_node_ref_counts id u).get_node id =
      some (applyUtilizationUpdate u (applyRefCountUpdate u n)) := by
  unfold Scheduler.get_node at h ⊢
  unfold Scheduler.update_node_ref_counts
  rw [List.find?_map]
  have hqf : ((fun q : Nat × SchedulerNode => q.1 == id) ∘ fun p =>
      if p.1 = id then
        (p.1, applyUtilizationUpdate u (applyRefCountUpdate u p.2))
      else p) = fun q : Nat × SchedulerNode => q.1 == id := by
    funext p
    by_cases hp : p.1 = id <;> simp [hp]
  rw [hqf]
  cases hfind : s.nodes.find? fun p => p.1 == id with
  | none => rw [hfind] at h; simp at h
  | some p0 =>
      rw [hfind] at h
      simp only [Option.map_some'] at h ⊢
      have hkey : p0.1 = id := by
        have hps := List.find?_some hfind
        simpa using hps
      injection h with h2
      simp [hkey, h2]

/-- C4: for a known node, update_node_ref_counts changes the counters
exactly as the six-row table specifies: Attach adds one to both counters,
Detach subtracts one from both, AddSecondary adds one to shard_count only,
RemoveSecondary subtracts one from shard_count only, PromoteSecondary adds
one to attached_shard_count only, DemoteAttached subtracts one from
attached_shard_count only.  For Attach and AddSecondary with may_schedule Yes the
utilization is bumped via adjust_shard_count_max at the new shard_count,
and in every other case the utilization is left untouched.  The numeric
side conditions keep the usize and u32 arithmetic away from wrapping. -/
theorem update_ref_counts_table (s : Scheduler) (id : Nat) (sc ac : Nat) :
    (∀ u : PageserverUtilization,
      s.get_node id = some ⟨sc, ac, .yes u⟩ →
      sc + 1 < U32 → 0 < sc → 0 < ac → ac + 1 < U64 →
      (s.update_node_ref_counts id .attach).get_node id =
          some ⟨sc + 1, ac + 1, .yes (u.adjust_shard_count_max (sc + 1))⟩ ∧
        (s.update_node_ref_counts id .detach).get_node id =
          some ⟨sc - 1, ac - 1, .yes u⟩ ∧
        (s.update_node_ref_counts id .addSecondary).get_node id =
          some ⟨sc + 1, ac, .yes (u.adjust_shard_count_max (sc + 1))⟩ ∧
        (s.update_node_ref_counts id .removeSecondary).get_node id =
          some ⟨sc - 1, ac, .yes u⟩ ∧
        (s.update_node_ref_counts id .promoteSecondary).get_node id =
          some ⟨sc, ac + 1, .yes u⟩ ∧
        (s.update_node_ref_counts id .demoteAttached).get_node id =
          some ⟨sc, ac - 1, .yes u⟩) ∧
    (s.get_node id = some ⟨sc, ac, .no⟩ →
      sc + 1 < U64 → 0 < sc → 0 < ac → ac + 1 < U64 →
      (s.update_node_ref_counts id .attach).get_node id =
          some ⟨sc + 1, ac + 1, .no⟩ ∧
        (s.update_node_ref_counts id .detach).get_node id =
          some ⟨sc - 1, ac - 1, .no⟩ ∧
        (s.update_node_ref_counts id .addSecondary).get_node id =
          some ⟨sc + 1, ac, .no⟩ ∧
        (s.update_node_ref_counts id .removeSecondary).get_node id =
          some ⟨sc - 1, ac, .no⟩ ∧
        (s.update_node_ref_counts id .promoteSecondary).get_node id =
          some ⟨sc, ac + 1, .no⟩ ∧
        (s.update_node_ref_counts id .demoteAttached).get_node id =
          some ⟨sc, ac - 1, .no⟩) := by
  have hU : U32 < U64 := by norm_num [U32, U64]
  constructor
  · intro u h h32 hsc hac hac64
    have h64 : sc + 1 < U64 := lt_trans h32 hU
    have e1 : (sc + 1) % U64 = sc + 1 := Nat.mod_eq_of_lt h64
    have e2 : (ac + 1) % U64 = ac + 1 := Nat.mod_eq_of_lt hac64
    have e3 : (sc + 1) % U32 = sc + 1 := Nat.mod_eq_of_lt h32
    have e4 : (sc + (U64 - 1)) % U64 = sc - 1 := by
      have : sc < U64 := lt_trans (Nat.lt_succ_self sc) h64
      unfold U64 at *
      omega
    have e5 : (ac + (U64 - 1)) % U64 = ac - 1 := by
      have : ac < U64 := lt_trans (Nat.lt_succ_self ac) hac64
      unfold U64 at *
      omega
    refine ⟨?_, ?_, ?_, ?_, ?_, ?_⟩ <;>
      rw [get_node_update_ref_counts _ h] <;>
      simp [applyRefCountUpdate, applyUtilizationUpdate, e1, e2, e3, e4, e5]
  · intro h h64 hsc hac hac64
    have e1 : (sc + 1) % U64 = sc + 1 := Nat.mod_eq_of_lt h64
    have e2 : (ac + 1) % U64 = ac + 1 := Nat.mod_eq_of_lt hac64
    have e4 : (sc + (U64 - 1)) % U64 = sc - 1 := by
      have : sc < U64 := lt_trans (Nat.lt_succ_self sc) h64
      unfold U64 at *
      omega
    have e5 : (ac + (U64 - 1)) % U64 = ac - 1 := by
      have : ac < U64 := lt_trans (Nat.lt_succ_self ac) hac64
      unfold U64 at *
      omega
    refine ⟨?_, ?_, ?_, ?_, ?_, ?_⟩ <;>
      rw [get_node_update_ref_counts _ h] <;>
      simp [applyRefCountUpdate, applyUtilizationUpdate, e1, e2, e4, e5]

/-- Witness for C4 at a concrete one-node scheduler. -/
theorem update_ref_counts_table_witness :
    ((Scheduler.mk [(1, ⟨2, 1, .yes ⟨7, 0⟩⟩)]).update_node_ref_counts 1
        RefCountUpdate.attach).get_node 1 =
      some ⟨3, 2, .yes ((⟨7, 0⟩ : PageserverUtilization).adjust_shard_count_max 3)⟩ :=
  ((update_ref_counts_table (Scheduler.mk [(1, ⟨2, 1, .yes ⟨7, 0⟩⟩)]) 1 2 1).1
    ⟨7, 0⟩ rfl (by norm_num [U32]) (by norm_num) (by norm_num)
    (by norm_num [U64])).1

/-- The utilization part of an update never changes the counters. -/
theorem applyUtilizationUpdate_counters (u : RefCountUpdate)
    (n : SchedulerNode) :
    (applyUtilizationUpdate u n).shard_count = n.shard_count ∧
    (applyUtilizationUpdate u n).attached_shard_count =
      n.attached_shard_count := by
  cases u <;> cases hm : n.may_schedule <;> simp [applyUtilizationUpdate, hm]

/-- C5 (amended): the invariant attached_shard_count at most shard_count is
established by new and preserved by node_upsert, node_remove, and by
update_node_ref_counts whenever the update is consistent with the counters
of the targeted node (decrements hit a positive counter, increments do not
overflow, PromoteSecondary and RemoveSecondary find attached_shard_count
strictly below shard_count).  Arbitrary update sequences can violate it. -/
theorem counters_invariant_preservation :
    (∀ ns, (Scheduler.new ns).counters_invariant) ∧
    (∀ (s : Scheduler) (id : Nat) (ms : MaySchedule), s.counters_invariant →
      (s.node_upsert id ms).counters_invariant) ∧
    (∀ (s : Scheduler) (id : Nat), s.counters_invariant →
      (s.node_remove id).counters_invariant) ∧
    (∀ (s : Scheduler) (id : Nat) (u : RefCountUpdate), s.counters_invariant →
      (∀ p ∈ s.nodes, p.1 = id → ref_count_precondition u p.2) →
      (s.update_node_ref_counts id u).counters_invariant) := by
  have hU : (0 : Nat) < U64 := by norm_num [U64]
  refine ⟨?_, ?_, ?_, ?_⟩
  · intro ns p hp
    simp only [Scheduler.new, List.mem_map] at hp
    obtain ⟨q, hq, rfl⟩ := hp
    exact ⟨le_refl 0, hU, hU⟩
  · intro s id ms h p hp
    unfold Scheduler.node_upsert at hp
    by_cases hocc : (s.nodes.find? fun p => p.1 == id).isSome
    · rw [if_pos hocc] at hp
      simp only [List.mem_map] at hp
      obtain ⟨q, hq, rfl⟩ := hp
      have hv := h q hq
      by_cases hqid : q.1 = id <;> simp [hqid] <;> exact hv
    · rw [if_neg hocc] at hp
      rcases List.mem_append.mp hp with hold | hnew
      · exact h p hold
      · simp only [List.mem_singleton] at hnew
        subst hnew
        exact ⟨le_refl 0, hU, hU⟩
  · intro s id h p hp
    exact h p (List.mem_of_mem_filter hp)
  · intro s id u h hpre p hp
    unfold Scheduler.update_node_ref_counts at hp
    simp only [List.mem_map] at hp
    obtain ⟨q, hq, rfl⟩ := hp
    by_cases hqid : q.1 = id
    · rw [if_pos hqid]
      obtain ⟨hle, hsu, hau⟩ := h q hq
      have hpq := hpre q hq hqid
      obtain ⟨hc1, hc2⟩ := applyUtilizationUpdate_counters u
        (applyRefCountUpdate u q.2)
      have hU64 : U64 = 18446744073709551616 := by norm_num [U64]
      rw [hU64] at hsu hau
      refine ⟨?_, ?_, ?_⟩ <;> simp only [hc1, hc2] <;>
        cases u <;>
          simp only [applyRefCountUpdate, ref_count_precondition, hU64]
            at hpq ⊢ <;>
          omega
    · simp only [hqid, if_neg, ite_false]
      exact h q hq

/-- Counterexample for C5 as stated: starting from new and applying the
single update PromoteSecondary to a node with both counters zero leaves the
node with attached_shard_count 1 and shard_count 0, violating the
invariant. -/
theorem counters_invariant_counterexample :
    ¬ ∀ p ∈ ((Scheduler.new [(1, MaySchedule.no)]).update_node_ref_counts 1
        RefCountUpdate.promoteSecondary).nodes,
      p.2.attached_shard_count ≤ p.2.shard_count := by decide

/-- Witness for C5 at a concrete scheduler and update. -/
theorem counters_invariant_preservation_witness :
    ((Scheduler.mk [(1, ⟨1, 0, MaySchedule.no⟩)]).update_node_ref_counts 1
      RefCountUpdate.promoteSecondary).counters_invariant :=
  counters_invariant_preservation.2.2.2
    (Scheduler.mk [(1, ⟨1, 0, MaySchedule.no⟩)]) 1
    RefCountUpdate.promoteSecondary
    (by
      intro p hp
      simp only [List.mem_singleton] at hp
      subst hp
      refine ⟨Nat.zero_le 1, ?_, ?_⟩ <;> norm_num [U64])
    (by
      intro p hp hid
      simp only [List.mem_singleton] at hp
      subst hp
      exact Nat.zero_lt_one)

/-- C6 (amended): compute_fill_requirement completes normally on every
input, and expected_attached_shard_count completes normally exactly when
the node table is non-empty (on an empty table its assertion fails).  The
remaining operations are total functions of the model. -/
theorem operations_totality (s : Scheduler) (id : Nat) :
    (s.compute_fill_requirement id).isSome = true ∧
    ((s.expected_attached_shard_count).isSome = true ↔ s.nodes ≠ []) := by
  constructor
  · cases hg : s.get_node id with
    | none => simp [Scheduler.compute_fill_requirement, hg]
    | some node =>
        have hne : s.nodes ≠ [] := by
          intro hn
          unfold Scheduler.get_node at hg
          rw [hn] at hg
          simp at hg
        cases hn : s.nodes with
        | nil => exact absurd hn hne
        | cons a l =>
            simp [Scheduler.compute_fill_requirement, hg, hn,
              Scheduler.expected_attached_shard_count]
  · cases hn : s.nodes with
    | nil => simp [Scheduler.expected_attached_shard_count, hn]
    | cons a l => simp [Scheduler.expected_attached_shard_count, hn]

/-- Witness for C6 at a concrete non-empty scheduler. -/
theorem operations_totality_witness :
    ((Scheduler.mk [(1, ⟨0, 0, MaySchedule.no⟩)]).compute_fill_requirement
      5).isSome = true :=
  (operations_totality (Scheduler.mk [(1, ⟨0, 0, MaySchedule.no⟩)]) 5).1

/-- Counterexample for C6 as stated: on the empty node table
expected_attached_shard_count does not complete normally (the source
assertion fails), modelled as returning none. -/
theorem operations_totality_counterexample :
    (Scheduler.expected_attached_shard_count (Scheduler.mk [])).isSome =
      false := by decide

end NeonScheduler
